import Mathlib

/-!
Verification of the sniper-bot core from this repository
(`src/src/types/index.ts`, with the legacy variant `src/new.ts`).

The TypeScript program runs on a single-threaded event loop: code between
`await` suspension points executes atomically.  The shallow embedding below
translates each relevant function into a pure Lean function; network results
(receipts, reserve fetches, balances, broadcast outcomes) are passed in as
explicit inputs, and the interleaving of concurrent handlers is modelled as a
sequence of their atomic sections.
-/

namespace Sniper

/-- The process-wide lock of `src/src/types/index.ts` lines 70-71:
`isSnipingActive : boolean` and `currentTargetToken : string | null`. -/
structure Gate where
  active : Bool
  targetToken : Option String
  deriving DecidableEq, Repr

/-- The gate at process start (`isSnipingActive = false`,
`currentTargetToken = null`). -/
def Gate.fresh : Gate := ⟨false, none⟩

/-- The release action used on every unlock site of the source:
`isSnipingActive = false; currentTargetToken = null;`. -/
def Gate.release : Gate := ⟨false, none⟩

/-- The atomic lock section of the `PairCreated` handler
(`src/src/types/index.ts` lines 764-770): between the final
`if (isSnipingActive) return;` check and the assignments
`isSnipingActive = true; currentTargetToken = newToken;` there is no
`await`, so the check-and-set executes as one atomic step of the event
loop.  Returns whether the acquisition succeeded, with the new gate. -/
def tryAcquire (g : Gate) (token : String) : Bool × Gate :=
  if g.active then (false, g)
  else (true, ⟨true, some token⟩)

/-- An interleaving of N concurrent handlers projects to a total order of
their atomic lock sections; run those sections in sequence, recording each
handler's acquisition result. -/
def runAcquires : Gate → List String → List Bool × Gate
  | g, [] => ([], g)
  | g, t :: ts =>
    let r := tryAcquire g t
    let rest := runAcquires r.2 ts
    (r.1 :: rest.1, rest.2)

theorem runAcquires_active_all_fail (ts : List String) :
    ∀ g : Gate, g.active = true →
      (runAcquires g ts).1.count true = 0 ∧ (runAcquires g ts).2 = g := by
  induction ts with
  | nil => intro g _; simp [runAcquires]
  | cons t ts ih =>
    intro g hg
    have h := ih g hg
    simp [runAcquires, tryAcquire, hg, h.1, h.2]

theorem runAcquires_length (ts : List String) :
    ∀ g : Gate, (runAcquires g ts).1.length = ts.length := by
  induction ts with
  | nil => intro g; simp [runAcquires]
  | cons t ts ih => intro g; simp [runAcquires, ih]

/-- C1: Mutual exclusion of the single-flight gate.  (i) A contender that
observes `active = true` is rejected and the gate is unchanged; (ii) when
`active = false` the acquisition atomically sets `active = true` and the
target token; (iii) running any nonempty sequence of N atomic lock
sections against a fresh gate yields exactly one accepted acquisition and
N−1 rejected ones. -/
theorem tradeGate_mutual_exclusion :
    (∀ (g : Gate) (t : String), g.active = true → tryAcquire g t = (false, g)) ∧
    (∀ (g : Gate) (t : String), g.active = false →
      tryAcquire g t = (true, ⟨true, some t⟩)) ∧
    (∀ ts : List String, ts ≠ [] →
      (runAcquires Gate.fresh ts).1.count true = 1 ∧
      (runAcquires Gate.fresh ts).1.count false = ts.length - 1) := by
  refine ⟨?_, ?_, ?_⟩
  · intro g t hg; simp [tryAcquire, hg]
  · intro g t hg; simp [tryAcquire, hg]
  · intro ts hts
    match ts with
    | [] => exact absurd rfl hts
    | t :: ts =>
      have hact : (Gate.mk true (some t)).active = true := rfl
      have hfail := runAcquires_active_all_fail ts ⟨true, some t⟩ hact
      have hlen := runAcquires_length ts (⟨true, some t⟩ : Gate)
      constructor
      · simp [runAcquires, tryAcquire, Gate.fresh, hfail.1]
      · have hcount : ∀ (l : List Bool),
            l.count false + l.count true = l.length := by
          intro l
          induction l with
          | nil => rfl
          | cons b l ih =>
            cases b <;> simp [List.count_cons, ih] <;> omega
        have h1 : (runAcquires Gate.fresh (t :: ts)).1.count true = 1 := by
          simp [runAcquires, tryAcquire, Gate.fresh, hfail.1]
        have h2 := hcount (runAcquires Gate.fresh (t :: ts)).1
        have h3 : (runAcquires Gate.fresh (t :: ts)).1.length = ts.length + 1 := by
          simp [runAcquires, tryAcquire, Gate.fresh, hlen]
        have h4 : (t :: ts).length = ts.length + 1 := List.length_cons t ts
        omega

/-- Witness for C1 at a concrete input: three simultaneous candidate
events against a fresh gate yield exactly one accepted and two rejected. -/
theorem tradeGate_mutual_exclusion_witness :
    (runAcquires Gate.fresh ["tokA", "tokB", "tokC"]).1.count true = 1 ∧
    (runAcquires Gate.fresh ["tokA", "tokB", "tokC"]).1.count false = 2 :=
  tradeGate_mutual_exclusion.2.2 ["tokA", "tokB", "tokC"] (by decide)

/-! ## Sell monitor (`scheduleSellAfterBuy`, lines 502-667) -/

/-- `ethers.MaxUint256`, the amount the source approves. -/
def MaxUint256 : Nat := 2 ^ 256 - 1

/-- `approveToken` (lines 284-297): reads the router's current allowance;
if it already covers `amount` no approval transaction is sent, otherwise
the token is approved for `ethers.MaxUint256`.  Returns the approval
amount sent, or `none` when no approval transaction is issued. -/
def approveToken (allowance amount : Nat) : Option Nat :=
  if allowance ≥ amount then none
  else some MaxUint256

/-- Reason string passed to `executeSell` by the monitoring tick. -/
inductive SellReason
  | liquidityDrop
  | profitTarget
  deriving DecidableEq, Repr

/-- Per-position monitor configuration, fixed once monitoring starts:
`MIN_LIQUIDITY_BNB`, `initialLiquidityBNB`, `targetPrice`, `tokenBalance`
(lines 545-568), plus the external sell environment: the router
allowance, whether the `await approveToken(...)` step (allowance read,
approve transaction, `tx.wait(1)`) completes without throwing, and
whether the sell broadcast inside the `try` succeeds. -/
structure MonCfg where
  minLiquidity : ℚ
  initialLiquidity : ℚ
  targetPrice : Nat
  tokenBalance : Nat
  allowance : Nat
  approveOk : Bool
  sellOk : Bool
  deriving DecidableEq, Repr

/-- Mutable monitor state: the `sold` flag, whether the periodic interval
is still armed, `highestPriceSeen`, the number of entries into the
selling body (an upper bound on the `submitRawTx` calls the sell path
issues, exact whenever the approval step completes), the reason cited on
entering the selling path, and the shared gate. -/
structure MonState where
  sold : Bool
  intervalActive : Bool
  highest : Nat
  broadcasts : Nat
  sellReason : Option SellReason
  gate : Gate
  deriving DecidableEq, Repr

/-- `executeSell` (lines 571-623).  Its synchronous prefix
`if (sold) return; clearInterval(interval); sold = true;` runs atomically
(no `await` before it), so re-entry from an overlapping tick returns
without broadcasting; the reason is cited by the log at entry (line 575).
Then `await approveToken(token, tokenBalance)` (line 577) runs BEFORE the
`try` block (line 581): when the allowance read, the approve transaction,
or its `tx.wait(1)` rejects, the exception escapes into the `setInterval`
callback — which nothing catches (the handler's `.catch` only guards
`scheduleSellAfterBuy`'s own promise, already resolved when the interval
was installed) — so on that path `sold` stays set, the interval stays
cancelled, and the gate is NOT released.  When the approval step
completes, the body builds, signs, and calls `submitRawTx` once inside
the `try`; both the success branch and the `catch` branch release the
gate (`isSnipingActive = false; currentTargetToken = null`). -/
def executeSell (cfg : MonCfg) (reason : SellReason) (s : MonState) : MonState :=
  if s.sold then s
  else
    let s1 : MonState :=
      { s with sold := true, intervalActive := false,
               sellReason := some reason, broadcasts := s.broadcasts + 1 }
    let _approval := approveToken cfg.allowance cfg.tokenBalance
    if cfg.approveOk then
      if cfg.sellOk then { s1 with gate := Gate.release }
      else { s1 with gate := Gate.release }
    else s1

/-- What one monitoring tick observes from the chain: the liquidity
fetch (`none` = the `getReserves` call threw; `some l` = current total
liquidity, already doubled as in the source) and the price returned by
`getCurrentPriceFromReservesSafe` (`0` = sentinel). -/
structure TickObs where
  liqFetch : Option ℚ
  price : Nat
  deriving DecidableEq, Repr

/-- The profit half of the tick body (lines 652-664): a zero-sentinel
price is a no-op; otherwise update `highestPriceSeen` and, when the
current price has reached `targetPrice`, execute the sell citing the
profit reason. -/
def monitorTickPrice (cfg : MonCfg) (obs : TickObs) (s : MonState) : MonState :=
  if obs.price = 0 then s
  else
    let s1 := if s.highest < obs.price then { s with highest := obs.price } else s
    if cfg.targetPrice ≤ obs.price then executeSell cfg SellReason.profitTarget s1
    else s1

/-- One tick of the `setInterval` callback (lines 626-665): bail out if
already sold; if the liquidity check is configured and the initial
liquidity is known, fetch the reserves — on success with current
liquidity below the minimum, sell immediately citing the liquidity
reason and return; on fetch error continue with price monitoring. -/
def monitorTick (cfg : MonCfg) (obs : TickObs) (s : MonState) : MonState :=
  if s.sold then s
  else if 0 < cfg.minLiquidity ∧ 0 < cfg.initialLiquidity then
    match obs.liqFetch with
    | some liq =>
      if liq < cfg.minLiquidity then executeSell cfg SellReason.liquidityDrop s
      else monitorTickPrice cfg obs s
    | none => monitorTickPrice cfg obs s
  else monitorTickPrice cfg obs s

/-- Run the periodic tick over a finite prefix of the observation
stream. -/
def runTicks (cfg : MonCfg) (ticks : List TickObs) (s : MonState) : MonState :=
  ticks.foldl (fun st obs => monitorTick cfg obs st) s

/-- External observations consumed by one `scheduleSellAfterBuy` run:
the buy receipt (`none` = `waitForTransaction` returned `null`,
`some st` = receipt with status `st`), the token balance after the buy,
the entry price from `getCurrentPriceFromReservesSafe`, the initial
liquidity fetch, the tick observations, and the sell environment
(router allowance, whether the approval step completes without
throwing, whether the sell broadcast succeeds). -/
structure LifecycleEnv where
  receipt : Option Nat
  tokenBalance : Nat
  initialPrice : Nat
  initialLiqFetch : Option ℚ
  ticks : List TickObs
  allowance : Nat
  approveOk : Bool
  sellOk : Bool
  deriving DecidableEq, Repr

/-- Monitor state on the entry-failure paths of `scheduleSellAfterBuy`:
monitoring never starts (no interval armed, nothing broadcast) and the
gate has been released. -/
def abortedMonitor : MonState :=
  ⟨false, false, 0, 0, none, Gate.release⟩

/-- Monitor state the instant active monitoring begins:
`highestPriceSeen = initialPrice`, `sold = false`, interval armed, gate
still as the handler left it (locked). -/
def initMonState (g : Gate) (initialPrice : Nat) : MonState :=
  ⟨false, true, initialPrice, 0, none, g⟩

/-- `scheduleSellAfterBuy` (lines 502-667): wait for the buy receipt —
missing receipt or status ≠ 1 releases the gate and returns; zero token
balance releases and returns; a zero-sentinel entry price releases and
returns.  Otherwise compute `initialLiquidityBNB` (0 unless
`MIN_LIQUIDITY_BNB > 0` and the fetch succeeds), set
`targetPrice = initialPrice * 105 / 100`, and start the periodic tick
with the gate still locked. -/
def scheduleSellAfterBuy (minLiquidity : ℚ) (env : LifecycleEnv) (g : Gate) :
    MonState :=
  match env.receipt with
  | none => abortedMonitor
  | some st =>
    if st ≠ 1 then abortedMonitor
    else if env.tokenBalance ≤ 0 then abortedMonitor
    else if env.initialPrice = 0 then abortedMonitor
    else
      runTicks
        { minLiquidity := minLiquidity
          initialLiquidity :=
            if 0 < minLiquidity then env.initialLiqFetch.getD 0 else 0
          targetPrice := env.initialPrice * 105 / 100
          tokenBalance := env.tokenBalance
          allowance := env.allowance
          approveOk := env.approveOk
          sellOk := env.sellOk }
        env.ticks (initMonState g env.initialPrice)

/-- The continuation of the `PairCreated` handler after the lock is taken
(lines 773-795): a failed buy broadcast releases the gate immediately; on
a successful broadcast `scheduleSellAfterBuy` runs with a `.catch` that
releases the gate if the monitor promise crashes. -/
def pairCreatedAfterLock (minLiquidity : ℚ) (buyOk monitorCrashes : Bool)
    (env : LifecycleEnv) (g : Gate) : Gate :=
  if buyOk then
    if monitorCrashes then Gate.release
    else (scheduleSellAfterBuy minLiquidity env g).gate
  else Gate.release

/-! ## Lemmas about the sell monitor -/

theorem executeSell_of_sold (cfg : MonCfg) (r : SellReason) (s : MonState)
    (h : s.sold = true) : executeSell cfg r s = s := by
  simp [executeSell, h]

theorem executeSell_fields (cfg : MonCfg) (r : SellReason) (s : MonState)
    (h : s.sold = false) :
    (executeSell cfg r s).sold = true ∧
    (executeSell cfg r s).intervalActive = false ∧
    (executeSell cfg r s).broadcasts = s.broadcasts + 1 ∧
    (executeSell cfg r s).sellReason = some r ∧
    (cfg.approveOk = true → (executeSell cfg r s).gate = Gate.release) ∧
    (cfg.approveOk = false → (executeSell cfg r s).gate = s.gate) ∧
    (executeSell cfg r s).highest = s.highest := by
  cases ha : cfg.approveOk <;> cases hsk : cfg.sellOk <;>
    simp [executeSell, h, ha, hsk]

theorem monitorTick_of_sold (cfg : MonCfg) (obs : TickObs) (s : MonState)
    (h : s.sold = true) : monitorTick cfg obs s = s := by
  simp [monitorTick, h]

/-- Gate-release invariant: once the `sold` flag is set, the gate has
been released. -/
def GateInv (s : MonState) : Prop := s.sold = true → s.gate = Gate.release

theorem gateInv_executeSell (cfg : MonCfg) (r : SellReason) (s : MonState)
    (ha : cfg.approveOk = true) (h : GateInv s) :
    GateInv (executeSell cfg r s) := by
  cases hs : s.sold with
  | true => rw [executeSell_of_sold cfg r s hs]; exact h
  | false =>
    intro _
    exact (executeSell_fields cfg r s hs).2.2.2.2.1 ha

theorem gateInv_monitorTickPrice (cfg : MonCfg) (obs : TickObs) (s : MonState)
    (ha : cfg.approveOk = true) (h : GateInv s) :
    GateInv (monitorTickPrice cfg obs s) := by
  by_cases h0 : obs.price = 0
  · simpa [monitorTickPrice, h0] using h
  · by_cases hhi : s.highest < obs.price <;>
      by_cases htp : cfg.targetPrice ≤ obs.price <;>
      simp [monitorTickPrice, h0, hhi, htp]
    · exact gateInv_executeSell cfg SellReason.profitTarget _ ha (fun hs => h hs)
    · exact fun hs => h hs
    · exact gateInv_executeSell cfg SellReason.profitTarget _ ha h
    · exact h

theorem gateInv_monitorTick (cfg : MonCfg) (obs : TickObs) (s : MonState)
    (ha : cfg.approveOk = true) (h : GateInv s) :
    GateInv (monitorTick cfg obs s) := by
  unfold monitorTick
  split
  · exact h
  · split
    · cases hf : obs.liqFetch with
      | none => simp only [hf]; exact gateInv_monitorTickPrice cfg obs s ha h
      | some liq =>
        simp only [hf]
        split
        · exact gateInv_executeSell cfg SellReason.liquidityDrop s ha h
        · exact gateInv_monitorTickPrice cfg obs s ha h
    · exact gateInv_monitorTickPrice cfg obs s ha h

theorem gateInv_runTicks (cfg : MonCfg) (ticks : List TickObs)
    (ha : cfg.approveOk = true) :
    ∀ s : MonState, GateInv s → GateInv (runTicks cfg ticks s) := by
  induction ticks with
  | nil => intro s h; exact h
  | cons o ts ih =>
    intro s h
    have : runTicks cfg (o :: ts) s = runTicks cfg ts (monitorTick cfg o s) := by
      simp [runTicks]
    rw [this]
    exact ih _ (gateInv_monitorTick cfg o s ha h)

theorem gateInv_scheduleSellAfterBuy (m : ℚ) (env : LifecycleEnv) (g : Gate)
    (ha : env.approveOk = true) :
    GateInv (scheduleSellAfterBuy m env g) := by
  unfold scheduleSellAfterBuy
  have habort : GateInv abortedMonitor := fun h => nomatch h
  cases env.receipt with
  | none => exact habort
  | some st =>
    by_cases h1 : st ≠ 1
    · simpa [h1] using habort
    · by_cases h2 : env.tokenBalance ≤ 0
      · simpa [h1, h2] using habort
      · by_cases h3 : env.initialPrice = 0
        · simpa [h1, h2, h3] using habort
        · simp only [h1, h2, h3, if_false, if_neg, ite_false]
          simpa [h1, h2, h3] using
            gateInv_runTicks _ env.ticks ha (initMonState g env.initialPrice)
              (fun h => nomatch h)

theorem sched_receipt_none (m : ℚ) (env : LifecycleEnv) (g : Gate)
    (h : env.receipt = none) :
    scheduleSellAfterBuy m env g = abortedMonitor := by
  simp [scheduleSellAfterBuy, h]

theorem sched_receipt_reverted (m : ℚ) (env : LifecycleEnv) (g : Gate) (st : Nat)
    (h : env.receipt = some st) (hne : st ≠ 1) :
    scheduleSellAfterBuy m env g = abortedMonitor := by
  simp [scheduleSellAfterBuy, h, hne]

theorem sched_zero_balance (m : ℚ) (env : LifecycleEnv) (g : Gate)
    (h : env.tokenBalance = 0) :
    scheduleSellAfterBuy m env g = abortedMonitor := by
  unfold scheduleSellAfterBuy
  cases env.receipt with
  | none => rfl
  | some st =>
    by_cases h1 : st ≠ 1
    · simp [h1]
    · simp [h1, h]

theorem sched_zero_price (m : ℚ) (env : LifecycleEnv) (g : Gate)
    (h : env.initialPrice = 0) :
    scheduleSellAfterBuy m env g = abortedMonitor := by
  unfold scheduleSellAfterBuy
  cases env.receipt with
  | none => rfl
  | some st =>
    by_cases h1 : st ≠ 1
    · simp [h1]
    · by_cases h2 : env.tokenBalance ≤ 0
      · simp [h1, h2]
      · simp [h1, h2, h]

theorem pairCreated_gate_of_sched (m : ℚ) (b c : Bool) (env : LifecycleEnv)
    (g : Gate) (h : (scheduleSellAfterBuy m env g).gate = Gate.release) :
    pairCreatedAfterLock m b c env g = Gate.release := by
  unfold pairCreatedAfterLock
  cases b <;> cases c <;> simp [h]

/-- Counterexample to C2: a terminal failed-sell path that leaves the
gate stuck.  Buy confirms, 5 tokens received, entry price 100, a tick
sees price 200 ≥ target 105 and enters the selling path, but the
approval step throws (`approveOk = false`): the `sold` flag is set and
the interval cancelled — the position lifecycle is over — yet the gate
is still `isSnipingActive = true, currentTargetToken = "tok"`, not
released. -/
theorem gate_stuck_on_approve_failure :
    (scheduleSellAfterBuy 0
        ⟨some 1, 5, 100, none, [⟨none, 200⟩], 0, false, true⟩
        ⟨true, some "tok"⟩).sold = true ∧
    (scheduleSellAfterBuy 0
        ⟨some 1, 5, 100, none, [⟨none, 200⟩], 0, false, true⟩
        ⟨true, some "tok"⟩).intervalActive = false ∧
    pairCreatedAfterLock 0 true false
        ⟨some 1, 5, 100, none, [⟨none, 200⟩], 0, false, true⟩
        ⟨true, some "tok"⟩ = ⟨true, some "tok"⟩ ∧
    (⟨true, some "tok"⟩ : Gate) ≠ Gate.release := by
  refine ⟨by decide, by decide, by decide, by decide⟩

/-- C2 amended: every terminal outcome releases the gate EXCEPT an
approval failure inside the sell path.  For buy broadcast failure, a
missing receipt, a reverted buy, zero token balance, a zero-sentinel
entry price, a crash of the monitor promise (caught by the handler's
`.catch`), and an executed sell whose approval step completed — whether
the sell broadcast then succeeded or failed — the handler's continuation
ends with `isSnipingActive = false` and `currentTargetToken = null`.
The excepted path (`await approveToken` at line 577 throwing before the
`try` at line 581) is the counterexample above. -/
theorem gate_released_on_terminal_paths (m : ℚ) (buyOk monitorCrashes : Bool)
    (env : LifecycleEnv) (g : Gate)
    (hterm : buyOk = false ∨ monitorCrashes = true ∨
      env.receipt = none ∨ (∃ st, env.receipt = some st ∧ st ≠ 1) ∨
      env.tokenBalance = 0 ∨ env.initialPrice = 0 ∨
      (env.approveOk = true ∧ (scheduleSellAfterBuy m env g).sold = true)) :
    pairCreatedAfterLock m buyOk monitorCrashes env g = Gate.release := by
  rcases hterm with hb | hc | hr | ⟨st, hst, hne⟩ | hbal | hpr | ⟨ha, hsold⟩
  · simp [pairCreatedAfterLock, hb]
  · cases buyOk <;> simp [pairCreatedAfterLock, hc]
  · exact pairCreated_gate_of_sched m _ _ env g
      (by rw [sched_receipt_none m env g hr]; rfl)
  · exact pairCreated_gate_of_sched m _ _ env g
      (by rw [sched_receipt_reverted m env g st hst hne]; rfl)
  · exact pairCreated_gate_of_sched m _ _ env g
      (by rw [sched_zero_balance m env g hbal]; rfl)
  · exact pairCreated_gate_of_sched m _ _ env g
      (by rw [sched_zero_price m env g hpr]; rfl)
  · exact pairCreated_gate_of_sched m _ _ env g
      (gateInv_scheduleSellAfterBuy m env g ha hsold)

/-- Witness for the amended C2 at a concrete scenario: buy confirms,
5 tokens received, entry price 100, one tick sees price 200 ≥ target
105, the approval step completes and the sell executes; the handler's
continuation ends with the gate released. -/
theorem gate_released_on_terminal_paths_witness :
    pairCreatedAfterLock 0 true false
      ⟨some 1, 5, 100, none, [⟨none, 200⟩], 0, true, true⟩ ⟨true, some "tok"⟩ =
      Gate.release :=
  gate_released_on_terminal_paths 0 true false
    ⟨some 1, 5, 100, none, [⟨none, 200⟩], 0, true, true⟩ ⟨true, some "tok"⟩
    (Or.inr (Or.inr (Or.inr (Or.inr (Or.inr (Or.inr (by decide)))))))

/-! ## At-most-one sell -/

theorem monitorTickPrice_cases (cfg : MonCfg) (obs : TickObs) (s : MonState) :
    monitorTickPrice cfg obs s = s ∨
    monitorTickPrice cfg obs s = { s with highest := obs.price } ∨
    monitorTickPrice cfg obs s = executeSell cfg SellReason.profitTarget s ∨
    monitorTickPrice cfg obs s =
      executeSell cfg SellReason.profitTarget { s with highest := obs.price } := by
  by_cases h0 : obs.price = 0
  · left; simp [monitorTickPrice, h0]
  · by_cases hhi : s.highest < obs.price <;> by_cases htp : cfg.targetPrice ≤ obs.price
    · right; right; right; simp [monitorTickPrice, h0, hhi, htp]
    · right; left; simp [monitorTickPrice, h0, hhi, htp]
    · right; right; left; simp [monitorTickPrice, h0, hhi, htp]
    · left; simp [monitorTickPrice, h0, hhi, htp]

theorem monitorTick_cases_aux (cfg : MonCfg) (obs : TickObs) (s : MonState)
    (hs : s.sold = false)
    (heq : monitorTick cfg obs s = monitorTickPrice cfg obs s) :
    monitorTick cfg obs s = s ∨
    (s.sold = false ∧ monitorTick cfg obs s = { s with highest := obs.price }) ∨
    (s.sold = false ∧ ∃ r, monitorTick cfg obs s = executeSell cfg r s) ∨
    (s.sold = false ∧ ∃ r,
      monitorTick cfg obs s = executeSell cfg r { s with highest := obs.price }) := by
  rcases monitorTickPrice_cases cfg obs s with h | h | h | h
  · exact Or.inl (heq.trans h)
  · exact Or.inr (Or.inl ⟨hs, heq.trans h⟩)
  · exact Or.inr (Or.inr (Or.inl ⟨hs, SellReason.profitTarget, heq.trans h⟩))
  · exact Or.inr (Or.inr (Or.inr ⟨hs, SellReason.profitTarget, heq.trans h⟩))

/-- A monitoring tick either leaves the state unchanged, only raises the
peak price, or enters `executeSell` (possibly after the peak update). -/
theorem monitorTick_cases (cfg : MonCfg) (obs : TickObs) (s : MonState) :
    monitorTick cfg obs s = s ∨
    (s.sold = false ∧ monitorTick cfg obs s = { s with highest := obs.price }) ∨
    (s.sold = false ∧ ∃ r, monitorTick cfg obs s = executeSell cfg r s) ∨
    (s.sold = false ∧ ∃ r,
      monitorTick cfg obs s = executeSell cfg r { s with highest := obs.price }) := by
  by_cases hs : s.sold = true
  · exact Or.inl (monitorTick_of_sold cfg obs s hs)
  · have hs' : s.sold = false := by revert hs; cases s.sold <;> simp
    by_cases hliq : 0 < cfg.minLiquidity ∧ 0 < cfg.initialLiquidity
    · cases hf : obs.liqFetch with
      | some l =>
        by_cases hd : l < cfg.minLiquidity
        · exact Or.inr (Or.inr (Or.inl ⟨hs', SellReason.liquidityDrop,
            by simp [monitorTick, hs', hliq, hf, hd]⟩))
        · exact monitorTick_cases_aux cfg obs s hs'
            (by simp [monitorTick, hs', hliq, hf, hd])
      | none =>
        exact monitorTick_cases_aux cfg obs s hs'
          (by simp [monitorTick, hs', hliq, hf])
    · exact monitorTick_cases_aux cfg obs s hs'
        (by simp [monitorTick, hs', hliq])

/-- Broadcast-count invariant: at most one sell broadcast ever, and none
before the `sold` flag is set. -/
def BroadcastInv (s : MonState) : Prop :=
  s.broadcasts ≤ 1 ∧ (s.sold = false → s.broadcasts = 0)

theorem bInv_executeSell (cfg : MonCfg) (r : SellReason) (s : MonState)
    (h : BroadcastInv s) : BroadcastInv (executeSell cfg r s) := by
  cases hs : s.sold with
  | true => rw [executeSell_of_sold cfg r s hs]; exact h
  | false =>
    have hf := executeSell_fields cfg r s hs
    refine ⟨?_, ?_⟩
    · rw [hf.2.2.1, h.2 hs]
    · intro hcontr
      rw [hf.1] at hcontr
      exact absurd hcontr (by decide)

theorem bInv_monitorTick (cfg : MonCfg) (obs : TickObs) (s : MonState)
    (h : BroadcastInv s) : BroadcastInv (monitorTick cfg obs s) := by
  rcases monitorTick_cases cfg obs s with hc | ⟨hs, hc⟩ | ⟨hs, r, hc⟩ | ⟨hs, r, hc⟩
  · rw [hc]; exact h
  · rw [hc]; exact ⟨h.1, fun _ => h.2 hs⟩
  · rw [hc]; exact bInv_executeSell cfg r s h
  · rw [hc]; exact bInv_executeSell cfg r _ ⟨h.1, fun _ => h.2 hs⟩

theorem bInv_runTicks (cfg : MonCfg) (ticks : List TickObs) :
    ∀ s : MonState, BroadcastInv s → BroadcastInv (runTicks cfg ticks s) := by
  induction ticks with
  | nil => intro s h; exact h
  | cons o ts ih =>
    intro s h
    have heq : runTicks cfg (o :: ts) s = runTicks cfg ts (monitorTick cfg o s) := by
      simp [runTicks]
    rw [heq]
    exact ih _ (bInv_monitorTick cfg o s h)

theorem foldExec_of_sold (cfg : MonCfg) (rs : List SellReason) :
    ∀ s : MonState, s.sold = true →
      rs.foldl (fun st r => executeSell cfg r st) s = s := by
  induction rs with
  | nil => intro s _; rfl
  | cons r rs ih =>
    intro s hs
    simp only [List.foldl_cons, executeSell_of_sold cfg r s hs]
    exact ih s hs

/-- C3: At-most-one sell per position.  (i) Once `sold` is set,
`executeSell` returns without broadcasting and a tick is a no-op;
(ii) entering the selling path atomically sets `sold` and cancels the
periodic interval, issuing exactly one broadcast; (iii) any nonempty
sequence of overlapping `executeSell` entries (arbitrary interleaving of
slow sells and new ticks) issues exactly one broadcast; (iv) any run of
the periodic tick from a fresh monitoring state issues at most one
broadcast. -/
theorem at_most_one_sell :
    (∀ (cfg : MonCfg) (r : SellReason) (s : MonState), s.sold = true →
      executeSell cfg r s = s) ∧
    (∀ (cfg : MonCfg) (obs : TickObs) (s : MonState), s.sold = true →
      monitorTick cfg obs s = s) ∧
    (∀ (cfg : MonCfg) (r : SellReason) (s : MonState), s.sold = false →
      (executeSell cfg r s).sold = true ∧
      (executeSell cfg r s).intervalActive = false ∧
      (executeSell cfg r s).broadcasts = s.broadcasts + 1) ∧
    (∀ (cfg : MonCfg) (rs : List SellReason) (s : MonState),
      s.sold = false → s.broadcasts = 0 → rs ≠ [] →
      (rs.foldl (fun st r => executeSell cfg r st) s).broadcasts = 1) ∧
    (∀ (cfg : MonCfg) (ticks : List TickObs) (s : MonState),
      s.sold = false → s.broadcasts = 0 →
      (runTicks cfg ticks s).broadcasts ≤ 1) := by
  refine ⟨executeSell_of_sold, monitorTick_of_sold, ?_, ?_, ?_⟩
  · intro cfg r s hs
    have hf := executeSell_fields cfg r s hs
    exact ⟨hf.1, hf.2.1, hf.2.2.1⟩
  · intro cfg rs s hs hb hne
    match rs with
    | [] => exact absurd rfl hne
    | r :: rs =>
      have hf := executeSell_fields cfg r s hs
      simp only [List.foldl_cons]
      rw [foldExec_of_sold cfg rs _ hf.1, hf.2.2.1, hb]
  · intro cfg ticks s hs hb
    exact (bInv_runTicks cfg ticks s ⟨by omega, fun _ => hb⟩).1

/-- Witness for C3 at a concrete input: three overlapping selling-path
entries against a fresh monitoring state issue exactly one broadcast. -/
theorem at_most_one_sell_witness :
    (([SellReason.profitTarget, SellReason.liquidityDrop,
        SellReason.profitTarget].foldl
      (fun st r => executeSell ⟨0, 0, 105, 5, 0, true, true⟩ r st)
      ⟨false, true, 100, 0, none, ⟨true, some "tok"⟩⟩).broadcasts) = 1 :=
  at_most_one_sell.2.2.2.1 ⟨0, 0, 105, 5, 0, true, true⟩
    [SellReason.profitTarget, SellReason.liquidityDrop, SellReason.profitTarget]
    ⟨false, true, 100, 0, none, ⟨true, some "tok"⟩⟩ rfl rfl (by decide)

/-- C5: Liquidity-check precedence.  On a tick where the liquidity-drop
condition holds (check configured, initial liquidity known, fetch
succeeded, current liquidity below the minimum) and the profit-target
condition holds simultaneously (price at or above target), the monitor
sells citing the liquidity-drop reason, never the profit reason, and the
profit logic (peak update) is bypassed entirely on that tick. -/
theorem liquidity_check_precedence (cfg : MonCfg) (obs : TickObs) (s : MonState)
    (l : ℚ) (hsold : s.sold = false) (hmin : 0 < cfg.minLiquidity)
    (hinit : 0 < cfg.initialLiquidity) (hfetch : obs.liqFetch = some l)
    (hdrop : l < cfg.minLiquidity) (_hprofit : cfg.targetPrice ≤ obs.price) :
    (monitorTick cfg obs s).sellReason = some SellReason.liquidityDrop ∧
    (monitorTick cfg obs s).sellReason ≠ some SellReason.profitTarget ∧
    (monitorTick cfg obs s).sold = true ∧
    (monitorTick cfg obs s).highest = s.highest := by
  have heq : monitorTick cfg obs s = executeSell cfg SellReason.liquidityDrop s := by
    simp [monitorTick, hsold, hmin, hinit, hfetch, hdrop]
  rw [heq]
  have hf := executeSell_fields cfg SellReason.liquidityDrop s hsold
  refine ⟨hf.2.2.2.1, ?_, hf.1, hf.2.2.2.2.2.2⟩
  rw [hf.2.2.2.1]
  simp

/-- Witness for C5 at a concrete input: minimum liquidity 5, initial
liquidity 10, tick observes liquidity 2 (< 5) and price 200 (≥ target
105); the sell cites the liquidity reason and the peak is untouched. -/
theorem liquidity_check_precedence_witness :
    (monitorTick ⟨5, 10, 105, 5, 0, true, true⟩ ⟨some 2, 200⟩
        ⟨false, true, 100, 0, none, ⟨true, some "tok"⟩⟩).sellReason =
      some SellReason.liquidityDrop ∧
    (monitorTick ⟨5, 10, 105, 5, 0, true, true⟩ ⟨some 2, 200⟩
        ⟨false, true, 100, 0, none, ⟨true, some "tok"⟩⟩).sellReason ≠
      some SellReason.profitTarget ∧
    (monitorTick ⟨5, 10, 105, 5, 0, true, true⟩ ⟨some 2, 200⟩
        ⟨false, true, 100, 0, none, ⟨true, some "tok"⟩⟩).sold = true ∧
    (monitorTick ⟨5, 10, 105, 5, 0, true, true⟩ ⟨some 2, 200⟩
        ⟨false, true, 100, 0, none, ⟨true, some "tok"⟩⟩).highest = 100 :=
  liquidity_check_precedence ⟨5, 10, 105, 5, 0, true, true⟩ ⟨some 2, 200⟩
    ⟨false, true, 100, 0, none, ⟨true, some "tok"⟩⟩ 2 rfl (by norm_num)
    (by norm_num) rfl (by norm_num) (by norm_num)

/-! ## Multi-endpoint broadcaster (`submitRawTx`, lines 227-281)

Each endpoint submission is simulated by the time it would take to settle
and its outcome (`some hash` = the RPC would accept, `none` = it would
error).  Real time is abstracted to these settle times. -/

/-- Simulated behaviour of one RPC endpoint for one broadcast. -/
structure EndpointSim where
  elapsedMs : Nat
  hash : Option String
  deriving DecidableEq, Repr

/-- One submission closure (lines 238-258): `Promise.race` of the
endpoint call against a `timeoutMs` rejection.  Yields the settled
outcome (`some hash` on success, `none` on error or timeout) and the
time at which this submission settles. -/
def settleOutcome (timeoutMs : Nat) (e : EndpointSim) : Option String × Nat :=
  if e.elapsedMs ≤ timeoutMs then (e.hash, e.elapsedMs)
  else (none, timeoutMs)

/-- `submitRawTx` (lines 227-281): submit to all endpoints, then
`await Promise.allSettled(submissions)` — which resolves only after
EVERY submission has settled — then scan the results in endpoint-index
order and return the first success's hash; `none` models the
`All RPC endpoints failed` throw.  The second component is the time at
which the returned promise resolves: the maximum of all settle times. -/
def submitRawTx (timeoutMs : Nat) (endpoints : List EndpointSim) :
    Option String × Nat :=
  let settled := endpoints.map (settleOutcome timeoutMs)
  ((settled.map Prod.fst).findSome? id,
   (settled.map Prod.snd).foldl max 0)

/-- Modelled from the spec (§4.3 MultiEndpointBroadcaster), for
comparison with `submitRawTx`: race the submissions and return the hash
of the FIRST endpoint to respond successfully — first-to-respond wins
regardless of endpoint index — at that response's time, without waiting
for the losers. -/
def broadcastSpec (timeoutMs : Nat) (endpoints : List EndpointSim) :
    Option (String × Nat) :=
  let successes := (endpoints.map (settleOutcome timeoutMs)).filterMap
    (fun p => p.1.map (fun h => (h, p.2)))
  successes.foldl
    (fun acc p =>
      match acc with
      | none => some p
      | some q => if p.2 < q.2 then some p else some q)
    none

/-- C4 evaluated on the spec's own test: three endpoints where endpoint 2
succeeds in 50ms and endpoints 1 and 3 time out at the 5000ms limit.
The code resolves only at 5000ms (it awaits `Promise.allSettled`), not
at ≈50ms as the claim requires; and with two successes at 100ms (index
0) and 50ms (index 1), the code returns the INDEX-first hash `"hA"`
although `"hB"` responded first, while the spec's race returns `"hB"`
at 50ms.  The all-endpoints-failed half of the claim does hold: with
every endpoint erroring or timing out the result is the failure throw. -/
theorem broadcaster_race_code_behavior :
    submitRawTx 5000 [⟨9999, some "h1"⟩, ⟨50, some "h2"⟩, ⟨9999, none⟩] =
      (some "h2", 5000) ∧
    broadcastSpec 5000 [⟨9999, some "h1"⟩, ⟨50, some "h2"⟩, ⟨9999, none⟩] =
      some ("h2", 50) ∧
    submitRawTx 5000 [⟨100, some "hA"⟩, ⟨50, some "hB"⟩] = (some "hA", 100) ∧
    broadcastSpec 5000 [⟨100, some "hA"⟩, ⟨50, some "hB"⟩] = some ("hB", 50) ∧
    submitRawTx 5000 [⟨9999, some "h1"⟩, ⟨30, none⟩] = (none, 5000) := by
  refine ⟨?_, ?_, ?_, ?_, ?_⟩ <;> rfl

/-- The half of C4 the code does satisfy: `submitRawTx` fails with the
all-endpoints-failed error if and only if every configured endpoint
either errors or exceeds the per-endpoint timeout. -/
theorem submitRawTx_all_failed_iff (timeoutMs : Nat)
    (endpoints : List EndpointSim) :
    (submitRawTx timeoutMs endpoints).1 = none ↔
      ∀ e ∈ endpoints, e.hash = none ∨ timeoutMs < e.elapsedMs := by
  unfold submitRawTx
  induction endpoints with
  | nil => simp
  | cons e es ih =>
    simp only [List.map_cons, List.findSome?_cons, List.mem_cons]
    by_cases he : e.elapsedMs ≤ timeoutMs
    · cases hh : e.hash with
      | none =>
        simp only [settleOutcome, if_pos he, hh]
        constructor
        · intro h x hx
          rcases hx with hx | hx
          · subst hx; exact Or.inl hh
          · exact (ih.1 (by simpa using h)) x hx
        · intro h
          simpa using ih.2 (fun x hx => h x (Or.inr hx))
      | some hsh =>
        simp only [settleOutcome, if_pos he, hh]
        constructor
        · intro h; simp at h
        · intro h
          rcases h e (Or.inl rfl) with h1 | h1
          · rw [hh] at h1; cases h1
          · omega
    · simp only [settleOutcome, if_neg he]
      constructor
      · intro h x hx
        rcases hx with hx | hx
        · subst hx; right; omega
        · exact (ih.1 (by simpa using h)) x hx
      · intro h
        simpa using ih.2 (fun x hx => h x (Or.inr hx))

/-- Witness for the all-failed direction at a concrete input. -/
theorem submitRawTx_all_failed_iff_witness :
    (submitRawTx 5000 [⟨9999, some "h1"⟩, ⟨30, none⟩]).1 = none :=
  (submitRawTx_all_failed_iff 5000 [⟨9999, some "h1"⟩, ⟨30, none⟩]).2
    (by intro e he; fin_cases he <;> simp)

/-! ## Reserve oracle (`getCurrentPriceFromReservesSafe`, lines 362-394) -/

/-- The inner provider loop of one retry round (lines 367-387): try the
fetch results in provider order; on a fetch whose two reserves are both
positive, pick the WBNB and token sides by leg order and return
`reserveWBNB * 1_000_000 * 10^18 / reserveToken`; on an error or a zero
reserve, move on to the next provider. -/
def tryProvidersOnce (tokenIsToken1 : Bool) :
    List (Option (Nat × Nat)) → Option Nat
  | [] => none
  | f :: rest =>
    match f with
    | some (r0, r1) =>
      if 0 < r0 ∧ 0 < r1 then
        let reserveWBNB := if tokenIsToken1 then r0 else r1
        let reserveToken := if tokenIsToken1 then r1 else r0
        if reserveToken = 0 then tryProvidersOnce tokenIsToken1 rest
        else some (reserveWBNB * 1000000 * 10 ^ 18 / reserveToken)
      else tryProvidersOnce tokenIsToken1 rest
    | none => tryProvidersOnce tokenIsToken1 rest

/-- `getCurrentPriceFromReservesSafe`: up to `maxRetries` (5) rounds,
each round trying every provider; when a round produces a price, return
it; when all rounds are exhausted, return the zero sentinel. -/
def getCurrentPriceFromReservesSafe (tokenIsToken1 : Bool) :
    List (List (Option (Nat × Nat))) → Nat
  | [] => 0
  | round :: rest =>
    match tryProvidersOnce tokenIsToken1 round with
    | some p => p
    | none => getCurrentPriceFromReservesSafe tokenIsToken1 rest

/-- The first fetch result whose two reserves are both positive. -/
def firstGoodFetch : List (Option (Nat × Nat)) → Option (Nat × Nat)
  | [] => none
  | some (r0, r1) :: rest =>
    if 0 < r0 ∧ 0 < r1 then some (r0, r1) else firstGoodFetch rest
  | none :: rest => firstGoodFetch rest

theorem tryProvidersOnce_eq (tokenIsToken1 : Bool)
    (fs : List (Option (Nat × Nat))) :
    tryProvidersOnce tokenIsToken1 fs = (firstGoodFetch fs).map
      (fun p => (if tokenIsToken1 then p.1 else p.2) * 1000000 * 10 ^ 18 /
        (if tokenIsToken1 then p.2 else p.1)) := by
  induction fs with
  | nil => rfl
  | cons f rest ih =>
    cases f with
    | none => simpa [tryProvidersOnce, firstGoodFetch] using ih
    | some p =>
      obtain ⟨r0, r1⟩ := p
      by_cases hpos : 0 < r0 ∧ 0 < r1
      · have hz : (if tokenIsToken1 then r1 else r0) ≠ 0 := by
          cases tokenIsToken1 <;> simp <;> omega
        simp [tryProvidersOnce, firstGoodFetch, hpos, hz]
      · simpa [tryProvidersOnce, firstGoodFetch, hpos] using ih

theorem firstGoodFetch_append (a b : List (Option (Nat × Nat))) :
    firstGoodFetch (a ++ b) =
      match firstGoodFetch a with
      | some p => some p
      | none => firstGoodFetch b := by
  induction a with
  | nil => rfl
  | cons f rest ih =>
    cases f with
    | none => simpa [firstGoodFetch] using ih
    | some p =>
      obtain ⟨r0, r1⟩ := p
      by_cases hpos : 0 < r0 ∧ 0 < r1 <;>
        simp [firstGoodFetch, hpos, ih]

/-- C6: Scaled price computation.  (i) When some fetch across the retry
rounds observes reserves with both sides positive, the first such fetch
determines the result, which is exactly
`reserveWBNB * 10^24 / reserveToken` (the base-asset reserve divided by
the token reserve at total scaling 10^24, since
`1_000_000 * 10^18 = 10^24`); (ii) when every fetch of every round fails
or shows a zero reserve, the zero sentinel is returned; (iii) for
reserves `(10·10^18, 1000·10^18)` with the token as the second leg, the
scaled result times 100 is exactly the scaling constant 10^24, i.e. it
reproduces 0.01 base units per token exactly. -/
theorem reserve_oracle_scaled_price :
    (∀ (tokenIsToken1 : Bool) (rounds : List (List (Option (Nat × Nat))))
        (r0 r1 : Nat),
      firstGoodFetch rounds.flatten = some (r0, r1) →
      getCurrentPriceFromReservesSafe tokenIsToken1 rounds =
        (if tokenIsToken1 then r0 else r1) * 10 ^ 24 /
          (if tokenIsToken1 then r1 else r0)) ∧
    (∀ (tokenIsToken1 : Bool) (rounds : List (List (Option (Nat × Nat)))),
      firstGoodFetch rounds.flatten = none →
      getCurrentPriceFromReservesSafe tokenIsToken1 rounds = 0) ∧
    (getCurrentPriceFromReservesSafe true
        [[some (10 * 10 ^ 18, 1000 * 10 ^ 18)]] * 100 = 10 ^ 24) := by
  have key : ∀ (t1 : Bool) (rounds : List (List (Option (Nat × Nat)))),
      getCurrentPriceFromReservesSafe t1 rounds =
        match firstGoodFetch rounds.flatten with
        | some p => (if t1 then p.1 else p.2) * 1000000 * 10 ^ 18 /
            (if t1 then p.2 else p.1)
        | none => 0 := by
    intro t1 rounds
    induction rounds with
    | nil => rfl
    | cons round rest ih =>
      rw [List.flatten_cons, firstGoodFetch_append]
      show (match tryProvidersOnce t1 round with
        | some p => p
        | none => getCurrentPriceFromReservesSafe t1 rest) = _
      rw [tryProvidersOnce_eq]
      cases firstGoodFetch round with
      | some p => rfl
      | none => simpa using ih
  refine ⟨?_, ?_, ?_⟩
  · intro t1 rounds r0 r1 h
    rw [key, h]
    have : (1000000 : Nat) * 10 ^ 18 = 10 ^ 24 := by norm_num
    cases t1 <;> simp only [] <;> rw [Nat.mul_assoc, this]
  · intro t1 rounds h
    rw [key, h]
  · rfl

/-- Witness for C6 at concrete inputs: a first-round fetch error followed
by a good fetch of reserves (10·10^18, 1000·10^18) with the token as
token1 yields exactly 10^22 = 0.01 · 10^24. -/
theorem reserve_oracle_scaled_price_witness :
    getCurrentPriceFromReservesSafe true
      [[none], [some (10 * 10 ^ 18, 1000 * 10 ^ 18)]] =
      (10 * 10 ^ 18) * 10 ^ 24 / (1000 * 10 ^ 18) :=
  reserve_oracle_scaled_price.1 true [[none], [some (10 * 10 ^ 18, 1000 * 10 ^ 18)]]
    (10 * 10 ^ 18) (1000 * 10 ^ 18) (by norm_num [firstGoodFetch])

/-! ## Startup configuration checks (lines 90, 117-120, 144-147, 773-776) -/

/-- The environment keys the checks under study read. -/
structure EnvVars where
  sniperContractAddress : Option String
  privateKey : Option String
  sendBNB : Option String
  deriving DecidableEq, Repr

/-- JavaScript falsiness of `process.env.X` (a `string | undefined`):
falsy iff undefined or the empty string. -/
def jsFalsy : Option String → Bool
  | none => true
  | some s => s.data.isEmpty

/-- JavaScript `String(x)` on a `string | undefined` value: the literal
string `"undefined"` when the key is absent (line 90:
`const sendBNB = String(process.env.SEND_BNB)`). -/
def jsStringOf : Option String → String
  | none => "undefined"
  | some s => s

/-- Hex-address shape validated by `isAddress(addr, false)` from
`@validate-ethereum-address` (no checksum): `0x` followed by 40 hex
digits. -/
def isAddress (s : String) : Bool :=
  match s.data with
  | '0' :: 'x' :: rest =>
    rest.length == 40 && rest.all
      (fun c => c.isDigit || ('a' ≤ c && c ≤ 'f') || ('A' ≤ c && c ≤ 'F'))
  | _ => false

/-- A string `new ethers.Wallet(key, provider)` (line 151) accepts as a
private key: `0x` followed by 64 hex digits (32 bytes); any other string
makes the constructor throw at module load. -/
def isPrivateKey (s : String) : Bool :=
  match s.data with
  | '0' :: 'x' :: rest =>
    rest.length == 64 && rest.all
      (fun c => c.isDigit || ('a' ≤ c && c ≤ 'f') || ('A' ≤ c && c ≤ 'F'))
  | _ => false

/-- The fatal module-load behaviour (lines 117-120, 144-147 and 151):
the process throws at startup iff the sniper contract address is missing
or invalid, the private key is missing, or the private key does not
parse as a 32-byte key when `new ethers.Wallet(PRIVATE_KEY, provider)`
is constructed.  No startup code reads `SEND_BNB`.  (The endpoint URL
keys are read with TypeScript non-null assertions and handed to provider
constructors without an explicit check; they are outside this model.) -/
def startupFatal (env : EnvVars) : Bool :=
  (jsFalsy env.sniperContractAddress ||
    !(isAddress (env.sniperContractAddress.getD ""))) ||
  (jsFalsy env.privateKey ||
    !(isPrivateKey (env.privateKey.getD "")))

/-- The in-handler guard (lines 773-776), reached only after a target has
been locked: `if (!sendBNB) { process.exit(1) }` where
`sendBNB = String(process.env.SEND_BNB)`.  Returns whether the process
exits there. -/
def sendBNBGuardExits (env : EnvVars) : Bool :=
  (jsStringOf env.sendBNB).data.isEmpty

/-- Counterexample to C7: with a valid sniper contract address and a
valid 32-byte private key (so the module load, including the
`new ethers.Wallet` construction, completes) but `SEND_BNB` absent from
the environment, startup does NOT fail (`startupFatal = false`), and
even the late in-handler guard does not fire, because
`String(undefined) = "undefined"` is a truthy string. -/
theorem spend_amount_not_fatal_counterexample :
    startupFatal ⟨some "0xaaaaaaaaaaaaaaaaaaaaaaaaaaaaaaaaaaaaaaaa",
      some "0xaaaaaaaaaaaaaaaaaaaaaaaaaaaaaaaaaaaaaaaaaaaaaaaaaaaaaaaaaaaaaaaa",
      none⟩ = false ∧
    sendBNBGuardExits ⟨some "0xaaaaaaaaaaaaaaaaaaaaaaaaaaaaaaaaaaaaaaaa",
      some "0xaaaaaaaaaaaaaaaaaaaaaaaaaaaaaaaaaaaaaaaaaaaaaaaaaaaaaaaaaaaaaaaa",
      none⟩ = false := by
  constructor <;> decide

/-- C7 amended: a missing spend amount is not a fatal startup error.
The fatal startup checks (sniper address validity, private-key presence
and `new ethers.Wallet` parseability) are independent of `SEND_BNB` — a
missing signing key is startup-fatal, as is a present-but-unparseable
one — while the only spend-amount guard sits inside the event handler
and exits iff the key is set to the empty string: never when the key is
absent (in which case the value is the truthy string `"undefined"`). -/
theorem spend_amount_check_behavior :
    (∀ a k s s' : Option String,
      startupFatal ⟨a, k, s⟩ = startupFatal ⟨a, k, s'⟩) ∧
    (∀ a s : Option String, startupFatal ⟨a, none, s⟩ = true) ∧
    (∀ a s : Option String, startupFatal ⟨a, some "0xabc123", s⟩ = true) ∧
    (∀ env : EnvVars, sendBNBGuardExits env = true ↔ env.sendBNB = some "") := by
  refine ⟨?_, ?_, ?_, ?_⟩
  · intro a k s s'; rfl
  · intro a s; simp [startupFatal, jsFalsy]
  · intro a s
    have h1 : isPrivateKey "0xabc123" = false := by decide
    simp [startupFatal, h1]
  · intro env
    cases hs : env.sendBNB with
    | none => simp only [sendBNBGuardExits, hs, jsStringOf]; decide
    | some s =>
      simp only [sendBNBGuardExits, hs, jsStringOf]
      constructor
      · intro h
        have hd : s = "" := by
          have hnil : s.data = [] := List.isEmpty_iff.1 h
          cases s with
          | mk data => simp only at hnil; rw [hnil]
        rw [hd]
      · intro h
        have hs2 : s = "" := by injection h
        rw [hs2]
        rfl

/-! ## Sell-path approval (C8) -/

/-- Counterexample to C8: with allowance 0 and a held balance of 5
tokens, the approval transaction approves `ethers.MaxUint256`
(2^256 − 1), not the exact held balance. -/
theorem approval_exact_amount_counterexample :
    approveToken 0 5 = some MaxUint256 ∧ MaxUint256 ≠ 5 := by
  constructor
  · rfl
  · intro h
    have : (2 : Nat) ^ 256 - 1 = 5 := h
    omega

/-- C8 amended: when the sell path runs (`executeSell` calls
`approveToken(token, tokenBalance)`), no approval transaction is sent
when the router's allowance already covers the held balance, and when it
is insufficient the router is approved for `MaxUint256` — the unlimited
allowance, not the exact balance. -/
theorem sell_path_approval (allowance amount : Nat) :
    (amount ≤ allowance → approveToken allowance amount = none) ∧
    (allowance < amount → approveToken allowance amount = some MaxUint256) := by
  constructor
  · intro h
    unfold approveToken
    rw [if_pos h]
  · intro h
    unfold approveToken
    rw [if_neg (by omega)]

/-- Witness for the amended C8 at concrete inputs: allowance 7 covers a
balance of 5, so no approval; allowance 0 does not cover 5, so the
unlimited approval is sent. -/
theorem sell_path_approval_witness :
    approveToken 7 5 = none ∧ approveToken 0 5 = some MaxUint256 :=
  ⟨(sell_path_approval 7 5).1 (by decide), (sell_path_approval 0 5).2 (by decide)⟩

/-! ## Buy gas pricing (`executeSwap`, lines 431-442) -/

/-- `parseUnits(n, 'gwei')`: gwei to wei. -/
def gwei (n : Nat) : Nat := n * 10 ^ 9

/-- The gas-price selection of `executeSwap`: with `competitiveGas` set,
`feeData.gasPrice || parseUnits('3','gwei')` (JS `||`: a 0n or missing
network gas price falls back to 3 gwei) times 150 over 100; otherwise the
fixed `parseUnits('0.05','gwei')` = 5·10^7 wei. -/
def executeSwapGasPrice (competitiveGas : Bool)
    (networkGasPrice : Option Nat) : Nat :=
  if competitiveGas then
    (match networkGasPrice with
      | some gp => if gp == 0 then gwei 3 else gp
      | none => gwei 3) * 150 / 100
  else 5 * 10 ^ 7

/-- Counterexample to C9: with the competitive option set and a network
gas price of 100 gwei, the gas price used is 150 gwei — above the
repository's configured maximum (`MAX_GAS_PRICE` defaults to 10 gwei in
`src/src/config/index.ts`); no clamping to any maximum occurs. -/
theorem competitive_gas_unclamped_counterexample :
    executeSwapGasPrice true (some (gwei 100)) = gwei 150 ∧
    gwei 10 < gwei 150 := by
  constructor
  · rfl
  · norm_num [gwei]

/-- C9 amended: when the buy is executed with the competitive-gas option
set, the gas price is the network gas price multiplied by 150/100 (with
a 3 gwei fallback when the network price is absent or zero) and is NOT
clamped to any maximum — it exceeds every candidate bound for a large
enough network price; when the option is not set, the fixed low default
0.05 gwei is used. -/
theorem competitive_gas_pricing :
    (∀ g : Nat, 0 < g →
      executeSwapGasPrice true (some g) = g * 150 / 100) ∧
    (executeSwapGasPrice true none = gwei 3 * 150 / 100) ∧
    (∀ o : Option Nat, executeSwapGasPrice false o = 5 * 10 ^ 7) ∧
    (∀ M : Nat, ∃ g : Nat, M < executeSwapGasPrice true (some g)) := by
  refine ⟨?_, rfl, fun o => by simp [executeSwapGasPrice], ?_⟩
  · intro g hg
    have : (g == 0) = false := by
      simp only [beq_eq_false_iff_ne, ne_eq]
      omega
    simp [executeSwapGasPrice, this]
  · intro M
    refine ⟨(M + 1) * 100, ?_⟩
    have h0 : ((M + 1) * 100 == 0) = false := by
      simp only [beq_eq_false_iff_ne, ne_eq]
      omega
    have h1 : executeSwapGasPrice true (some ((M + 1) * 100)) =
        (M + 1) * 100 * 150 / 100 := by
      simp [executeSwapGasPrice, h0]
    have h2 : (M + 1) * 100 * 150 / 100 = (M + 1) * 150 := by
      rw [Nat.mul_right_comm]
      exact Nat.mul_div_cancel _ (by norm_num)
    rw [h1, h2]
    omega

/-- Witness for the amended C9: network gas 100 gwei gives exactly
150 gwei. -/
theorem competitive_gas_pricing_witness :
    executeSwapGasPrice true (some (gwei 100)) = gwei 100 * 150 / 100 :=
  competitive_gas_pricing.1 (gwei 100) (by norm_num [gwei])

/-! ## Token-name deny-list filter (`shouldBuyToken`, lines 321-335) -/

/-- Whether `needle` occurs at the start of `hay` (character lists). -/
def listStartsWith : List Char → List Char → Bool
  | _, [] => true
  | [], _ :: _ => false
  | a :: as, b :: bs => a == b && listStartsWith as bs

/-- JavaScript `hay.includes(needle)` on character lists: `needle`
occurs contiguously somewhere in `hay` (the empty needle always
matches). -/
def listContainsSeq (needle : List Char) : List Char → Bool
  | [] => listStartsWith [] needle
  | c :: t => listStartsWith (c :: t) needle || listContainsSeq needle t

/-- `name.toLowerCase()` as a character list. -/
def toLowerStr (s : String) : List Char := s.data.map Char.toLower

/-- `shouldBuyToken` (lines 321-335): with no keywords configured every
token is bought; otherwise the token is skipped iff its lowercased name
contains any keyword (each compared lowercased). -/
def shouldBuyToken (keywords : List String) (name : String) : Bool :=
  if keywords.length == 0 then true
  else
    !(keywords.any (fun k => listContainsSeq (toLowerStr k) (toLowerStr name)))

/-- C10: Deny-list name filter.  The filter rejects a token iff the
lowercased name contains some configured keyword lowercased (so an empty
keyword configuration accepts every name); with keywords
`["Moon","Pepe"]`, `"SafeMoon"` is rejected and `"Rocket"` accepted, and
the empty configuration accepts both. -/
theorem deny_list_name_filter :
    (∀ (keywords : List String) (name : String),
      shouldBuyToken keywords name = false ↔
        ∃ k ∈ keywords,
          listContainsSeq (toLowerStr k) (toLowerStr name) = true) ∧
    shouldBuyToken ["Moon", "Pepe"] "SafeMoon" = false ∧
    shouldBuyToken ["Moon", "Pepe"] "Rocket" = true ∧
    (∀ name : String, shouldBuyToken [] name = true) := by
  refine ⟨?_, by decide, by decide, fun name => rfl⟩
  intro keywords name
  cases keywords with
  | nil => simp [shouldBuyToken]
  | cons k ks =>
    simp only [shouldBuyToken, List.any_cons, List.length_cons]
    cases hc : listContainsSeq (toLowerStr k) (toLowerStr name) <;>
      simp [hc]

end Sniper
